import Mathlib

/-!
Verification of the matgl data transformer, structure-to-graph converter and
training utilities (`matgl/data/transformer.py`, `matgl/graph/converters.py`,
`matgl/utils/training.py`).

Modelling conventions:
* Scalars known to be finite are modelled as rationals (`ℚ`).
* Tensor entries that may hold an IEEE not-a-number are modelled as `Option ℚ`
  (`QN` below), with `none` playing the role of NaN; arithmetic on `QN` is
  NaN-absorbing, `torch.min` propagates NaN, and the mean of an empty tensor
  is NaN, matching torch semantics.
* Loss functions (`F.mse_loss`, `F.l1_loss`, `F.huber_loss`) are modelled with
  their default `reduction="mean"` and default Huber `delta`.
* Root-mean-square-error values are irrational in general, so the embedding
  carries the radicand (the mean of squared errors) in the RMSE slots.  The
  real RMSE is the square root of the carried value; since the square root is
  strictly monotone and sends 0 to 0, minima and exact-zero statements about
  the carried radicands transfer verbatim to the RMSE values themselves.
-/

/-! ### Normalizer (`matgl/data/transformer.py`) -/

/-- `Normalizer` holds the mean and standard deviation used for target scaling. -/
structure Normalizer where
  mean : ℚ
  std : ℚ
deriving DecidableEq

/-- `Normalizer.transform`: `(data - self.mean) / self.std`. -/
def Normalizer.transform (n : Normalizer) (data : ℚ) : ℚ :=
  (data - n.mean) / n.std

/-- `Normalizer.inverse_transform`: `data * self.std + self.mean`. -/
def Normalizer.inverse_transform (n : Normalizer) (data : ℚ) : ℚ :=
  data * n.std + n.mean

/-! ### NaN-aware rational arithmetic for tensor entries -/

/-- A tensor entry: `some q` is the finite value `q`, `none` is an IEEE NaN. -/
abbrev QN := Option ℚ

/-- Lift a binary rational operation to NaN-absorbing entries. -/
def QN.lift2 (f : ℚ → ℚ → ℚ) : QN → QN → QN
  | some a, some b => some (f a b)
  | _, _ => none

/-- NaN-absorbing addition. -/
def QN.add : QN → QN → QN := QN.lift2 (· + ·)

/-- `torch.min` of two scalars: propagates NaN. -/
def QN.min : QN → QN → QN := QN.lift2 Min.min

/-- Scaling by a finite weight. -/
def QN.smul (c : ℚ) (x : QN) : QN := x.map (fun a => c * a)

/-- Negation of an entry. -/
def QN.neg (x : QN) : QN := x.map (fun a => -a)

/-- `torch.abs` of an entry. -/
def QN.abs (x : QN) : QN := x.map (fun a => |a|)

/-- Sum of a list of entries; NaN anywhere poisons the sum. -/
def sumQN : List QN → QN
  | [] => some 0
  | x :: xs => QN.add x (sumQN xs)

/-- `torch.mean`: the mean of an empty tensor is NaN. -/
def meanQN (xs : List QN) : QN :=
  match xs with
  | [] => none
  | _ => (sumQN xs).map (fun s => s / (xs.length : ℚ))

/-- Negate every entry of a tensor (`-preds`). -/
def negL (l : List QN) : List QN := l.map QN.neg

/-- `torch.abs` applied elementwise. -/
def absL (l : List QN) : List QN := l.map QN.abs

/-! ### Loss functions (`torch.nn.functional`, default mean reduction) -/

/-- The three loss functions selectable in `training.py`. -/
inductive LossKind
  | mse
  | l1
  | huber
deriving DecidableEq

/-- Elementwise value of the selected loss on finite inputs
(`mse_loss`: squared error; `l1_loss`: absolute error; `huber_loss` with
parameter `δ`). -/
def lossElem (k : LossKind) (δ : ℚ) (x y : ℚ) : ℚ :=
  match k with
  | .mse => (x - y) ^ 2
  | .l1 => |x - y|
  | .huber => if |x - y| ≤ δ then (x - y) ^ 2 / 2 else δ * (|x - y| - δ / 2)

/-- The selected loss with mean reduction, on NaN-aware tensors. -/
def lossMean (k : LossKind) (δ : ℚ) (labels preds : List QN) : QN :=
  meanQN ((labels.zip preds).map (fun p => QN.lift2 (lossElem k δ) p.1 p.2))

/-- `torchmetrics.MeanAbsoluteError` on the current batch. -/
def maeQN (labels preds : List QN) : QN :=
  meanQN ((labels.zip preds).map (fun p => QN.lift2 (fun x y => |x - y|) p.1 p.2))

/-- Radicand of `torchmetrics.MeanSquaredError(squared=False)` on the current
batch: the RMSE itself is the square root of this value. -/
def rmseSqQN (labels preds : List QN) : QN :=
  meanQN ((labels.zip preds).map (fun p => QN.lift2 (fun x y => (x - y) ^ 2) p.1 p.2))

/-! ### GraphConverter (`matgl/graph/converters.py`) -/

/-- A cartesian 3-vector. -/
abbrev Vec3 := Fin 3 → ℚ

/-- A 3×3 matrix (a lattice, or one slice of a batched lattice array). -/
abbrev Mat3 := Matrix (Fin 3) (Fin 3) ℚ

/-- Number of nodes of `dgl.graph((u, v))`: one past the largest endpoint
index mentioned by any edge, or `0` when there are no edges. -/
def dglNumNodes (src dst : List Nat) : Nat :=
  if src ++ dst = [] then 0 else (src ++ dst).foldl Nat.max 0 + 1

/-- `torch.matmul` of an `E×3` tensor (list of rows) with a `3×3` tensor. -/
def torchMatmul (A : List Vec3) (B : Mat3) : List Vec3 :=
  A.map (fun row => fun j => ∑ k, row k * B k j)

/-- The graph assembled by `GraphConverter.get_graph`.  The `lattice` edge
attribute stores one copy of the `3×3` lattice per edge
(`np.repeat(lattice_matrix, g.num_edges(), axis=0)`), and `node_type` records
`element_types.index(symbol)` per site (`none` models the `ValueError` raised
when a species is absent from the vocabulary). -/
structure GGraph where
  numNodes : Nat
  numEdges : Nat
  pbc_offset : List Vec3
  lattice : List Mat3
  attr : List Nat
  node_type : List (Option Nat)
  pos : List Vec3
  pbc_offshift : List Vec3
  state_attr : List ℚ
deriving DecidableEq

/-- `GraphConverter.get_graph`.  `sites` is the list of species symbols of the
input structure (one per site, so `sites.length = len(structure)`), and
`lattice_matrix` is the batched lattice array of shape `(1, 3, 3)`, modelled
as a list of `3×3` matrices whose head is `lattice_matrix[0]`. -/
def get_graph (sites : List String) (src dst : List Nat) (images : List Vec3)
    (lattice_matrix : List Mat3) (Z : List Nat) (element_types : List String)
    (cart_coords : List Vec3) : GGraph :=
  let base := dglNumNodes src dst
  { numNodes := base + (sites.length - base)
    numEdges := src.length
    pbc_offset := images
    lattice := List.replicate src.length lattice_matrix.headI
    attr := Z
    node_type := sites.map (fun s => element_types.findIdx? (fun t => t == s))
    pos := cart_coords
    pbc_offshift := torchMatmul images lattice_matrix.headI
    state_attr := [0, 0] }

/-! ### Training modules (`matgl/utils/training.py`) -/

/-- Loss selection in `ModelLightningModule.__init__`: `mse_loss` selects the
mean-squared loss and every other string selects `F.l1_loss`. -/
def ModelLightningModule.selectLoss (loss : String) : LossKind :=
  if loss = "mse_loss" then .mse else .l1

/-- Loss selection in `PotentialLightningModule.__init__`: `mse_loss` and
`huber_loss` are recognized and every other string selects `F.l1_loss`. -/
def PotentialLightningModule.selectLoss (loss : String) : LossKind :=
  if loss = "mse_loss" then .mse
  else if loss = "huber_loss" then .huber
  else .l1

/-- The assertion block at the top of `PotentialLightningModule.__init__`,
which validates the four loss weights in order before construction proceeds. -/
def PotentialLightningModule.checkWeights
    (energy_weight force_weight stress_weight site_wise_weight : ℚ) :
    Except String Unit :=
  if energy_weight < 0 then
    Except.error ("energy_weight has to be >=0. Got " ++ toString energy_weight ++ "!")
  else if force_weight < 0 then
    Except.error ("force_weight has to be >=0. Got " ++ toString force_weight ++ "!")
  else if stress_weight < 0 then
    Except.error ("stress_weight has to be >=0. Got " ++ toString stress_weight ++ "!")
  else if site_wise_weight < 0 then
    Except.error ("site_wise_weight has to be >=0. Got " ++ toString site_wise_weight ++ "!")
  else Except.ok ()

/-- `PotentialLightningModule.on_load_checkpoint`: every key of the live
module's state dict that is missing from the saved state dict is inserted with
the live value; state dicts are modelled as association lists looked up by
first match. -/
def on_load_checkpoint (live ckpt : List (String × ℚ)) : List (String × ℚ) :=
  live.foldl (fun c kv => if (c.lookup kv.1).isSome then c else c ++ [kv]) ckpt

/-- `str.endswith(post)` on Python strings, modelled on the character lists of
the two strings (the byte-level `String.endsWith` agrees with this on
well-formed strings). -/
def pyEndsWith (s post : String) : Bool := post.toList.isSuffixOf s.toList

/-- The `site_wise_target` configuration values carried by
`PotentialLightningModule` (`None` is modelled by `Option.none`). -/
inductive SiteWiseTarget
  | absolute
  | symbreak
deriving DecidableEq

/-- Configuration of a `PotentialLightningModule` relevant to `loss_fn`. -/
structure PotentialConfig where
  energy_weight : ℚ
  force_weight : ℚ
  stress_weight : ℚ
  site_wise_weight : ℚ
  calc_stresses : Bool
  calc_site_wise : Bool
  allow_missing_labels : Bool
  site_wise_target : Option SiteWiseTarget
  lossKind : LossKind
  huberDelta : ℚ
deriving DecidableEq

/-- An energy/force/stress/site-wise tuple of label or prediction tensors
(forces and stresses flattened to entry lists). -/
structure EFSM where
  energies : List QN
  forces : List QN
  stresses : List QN
  site_wise : List QN
deriving DecidableEq

/-- The metric bundle returned by `PotentialLightningModule.loss_fn`; the RMSE
slots carry radicands as explained in the module docstring. -/
structure LossResults where
  Total_Loss : QN
  Energy_MAE : QN
  Force_MAE : QN
  Stress_MAE : QN
  Site_Wise_MAE : QN
  Energy_RMSE : QN
  Force_RMSE : QN
  Stress_RMSE : QN
  Site_Wise_RMSE : QN
deriving DecidableEq

/-- Elementwise division of energies by the per-structure atom counts
(`labels[0] / num_atoms`). -/
def divE (es : List QN) (ns : List ℚ) : List QN :=
  (es.zip ns).map (fun p => p.1.map (fun e => e / p.2))

/-- The missing-label mask: with `allow_missing_labels`, positions whose label
is NaN are removed from both the labels and the predictions
(`valid_values = ~torch.isnan(labels[3])`). -/
def siteWiseMask (allow : Bool) (ls ps : List QN) : List QN × List QN :=
  if allow then
    let pairs := (ls.zip ps).filter (fun p => p.1.isSome)
    (pairs.map Prod.fst, pairs.map Prod.snd)
  else (ls, ps)

/-- The `"symbreak"` site-wise loss of `loss_fn`:
`torch.min(loss(labels_3, preds_3), loss(labels_3, -preds_3))`, a minimum of
the two mean-reduced loss values. -/
def symbreak_m_loss (k : LossKind) (δ : ℚ) (l3 p3 : List QN) : QN :=
  QN.min (lossMean k δ l3 p3) (lossMean k δ l3 (negL p3))

/-- The energy/force/stress part of the total loss of `loss_fn`:
`energy_weight*L(E/N, Ê/N) + force_weight*L(F, F̂)`, plus
`stress_weight*L(S, Ŝ)` when stress computation is enabled. -/
def totalEFS (cfg : PotentialConfig) (labels preds : EFSM) (num_atoms : List ℚ) : QN :=
  let k := cfg.lossKind
  let δ := cfg.huberDelta
  let base :=
    QN.add
      (QN.smul cfg.energy_weight
        (lossMean k δ (divE labels.energies num_atoms) (divE preds.energies num_atoms)))
      (QN.smul cfg.force_weight (lossMean k δ labels.forces preds.forces))
  if cfg.calc_stresses then
    QN.add base (QN.smul cfg.stress_weight (lossMean k δ labels.stresses preds.stresses))
  else base

/-- The site-wise loss and metrics of `loss_fn` on the masked (valid) labels
and predictions, in the branch where at least one valid entry remains:
`(m_loss, m_mae, m_rmse)` following the `site_wise_target` policy. -/
def siteWiseTriple (cfg : PotentialConfig) (l3 p3 : List QN) : QN × QN × QN :=
  match cfg.site_wise_target with
  | some SiteWiseTarget.symbreak =>
    (symbreak_m_loss cfg.lossKind cfg.huberDelta l3 p3,
     QN.min (maeQN l3 p3) (maeQN l3 (negL p3)),
     QN.min (rmseSqQN l3 p3) (rmseSqQN l3 (negL p3)))
  | t =>
    let l3a := if t = some SiteWiseTarget.absolute then absL l3 else l3
    (lossMean cfg.lossKind cfg.huberDelta l3a p3, maeQN l3a p3, rmseSqQN l3a p3)

/-- `PotentialLightningModule.loss_fn`. -/
def loss_fn (cfg : PotentialConfig) (labels preds : EFSM) (num_atoms : List ℚ) :
    LossResults :=
  let masked := siteWiseMask cfg.allow_missing_labels labels.site_wise preds.site_wise
  let sitePart : QN × QN × QN :=
    if cfg.calc_site_wise then
      if masked.1.isEmpty then (totalEFS cfg labels preds num_atoms, some 0, some 0)
      else
        let t := siteWiseTriple cfg masked.1 masked.2
        (QN.add (totalEFS cfg labels preds num_atoms) (QN.smul cfg.site_wise_weight t.1),
         t.2.1, t.2.2)
    else (totalEFS cfg labels preds num_atoms, some 0, some 0)
  { Total_Loss := sitePart.1
    Energy_MAE := maeQN (divE labels.energies num_atoms) (divE preds.energies num_atoms)
    Force_MAE := maeQN labels.forces preds.forces
    Stress_MAE :=
      if cfg.calc_stresses then maeQN labels.stresses preds.stresses else some 0
    Site_Wise_MAE := sitePart.2.1
    Energy_RMSE := rmseSqQN (divE labels.energies num_atoms) (divE preds.energies num_atoms)
    Force_RMSE := rmseSqQN labels.forces preds.forces
    Stress_RMSE :=
      if cfg.calc_stresses then rmseSqQN labels.stresses preds.stresses else some 0
    Site_Wise_RMSE := sitePart.2.2 }

/-! ### Weight initialization (`xavier_init`) -/

/-- The action `xavier_init` takes on one named parameter.  `uniformRange`
records the square of the half-width `b` of the uniform range `[-b, b]`
(the half-width itself, `gain·√6/√(2·fan)`, is irrational in general);
`normalStd` records the second argument passed to `normal_`, i.e. the standard
deviation of the zero-mean normal fill, which in the code is the rational
number `bound**2`; `xavierScheme` is the standard rank-≥2 Xavier scheme. -/
inductive FillAction
  | zeroFill
  | uniformRange (boundSq : ℚ)
  | normalStd (std : ℚ)
  | xavierScheme (distribution : String)
deriving DecidableEq

/-- `xavier_init`, per parameter: validation of the distribution name followed
by the per-parameter branch on bias naming and rank.  For a rank-1 parameter of
shape `[fan]`, `bound = gain*math.sqrt(6)/math.sqrt(2*fan)`, so
`bound² = 3·gain²/fan`; the uniform branch fills `uniform_(-bound, bound)` and
the normal branch fills `normal_(0, bound**2)`. -/
def xavier_fill (gain : ℚ) (distribution : String) (name : String)
    (shape : List Nat) : Except String FillAction :=
  if distribution = "uniform" ∨ distribution = "normal" then
    if pyEndsWith name ".bias" then Except.ok FillAction.zeroFill
    else if shape.length < 2 then
      let fan : ℚ := (shape.headI : ℚ)
      if distribution = "uniform" then
        Except.ok (FillAction.uniformRange (3 * gain ^ 2 / fan))
      else Except.ok (FillAction.normalStd (3 * gain ^ 2 / fan))
    else Except.ok (FillAction.xavierScheme distribution)
  else Except.error ("Invalid distribution: " ++ distribution)

/-- The standard deviation the specification ascribes to the rank-<2 normal
fill is the bound `b = gain·√6/√(2·fan)` itself; being irrational, it is
represented by its square, `3·gain²/fan`. -/
def claimedNormalStdSq (gain fan : ℚ) : ℚ := 3 * gain ^ 2 / fan

/-- The site-wise `"symbreak"` loss as the specification words it: for each
element the minimum of the loss against `+label` and against `-label` is taken
before the mean reduction. -/
def specClaim_symbreak_m_loss (k : LossKind) (δ : ℚ) (l3 p3 : List QN) : QN :=
  meanQN ((l3.zip p3).map
    (fun p => QN.min (QN.lift2 (lossElem k δ) p.1 p.2)
      (QN.lift2 (lossElem k δ) p.1 (QN.neg p.2))))


/-! ### Helper lemmas -/

/-- Folding `Nat.max` over indices all below `n`, from a seed below `n`,
stays below `n`. -/
theorem foldl_max_lt {n : Nat} :
    ∀ (l : List Nat) (a : Nat), a < n → (∀ i ∈ l, i < n) → l.foldl Nat.max a < n := by
  intro l
  induction l with
  | nil => intro a ha _; simpa using ha
  | cons x xs ih =>
    intro a ha h
    simp only [List.foldl_cons]
    exact ih (Nat.max a x) (Nat.max_lt.mpr ⟨ha, h x (by simp)⟩)
      (fun i hi => h i (by simp [hi]))

/-- The node count of `dgl.graph((u, v))` never exceeds the structure size when
every endpoint is a valid site index. -/
theorem dglNumNodes_le {src dst : List Nat} {n : Nat}
    (h : ∀ i ∈ src ++ dst, i < n) : dglNumNodes src dst ≤ n := by
  unfold dglNumNodes
  by_cases hc : src ++ dst = []
  · simp [hc]
  · rw [if_neg hc]
    obtain ⟨x, xs, hx⟩ : ∃ x xs, src ++ dst = x :: xs := by
      cases hl : src ++ dst with
      | nil => exact absurd hl hc
      | cons y ys => exact ⟨y, ys, rfl⟩
    have hn : 0 < n := lt_of_le_of_lt (Nat.zero_le x) (h x (by simp [hx]))
    exact Nat.succ_le_of_lt (foldl_max_lt _ 0 hn h)

/-! ### Claim theorems -/

/-- C1: for every mean, every `std ≠ 0` and every input `x`, a
`Normalizer(mean, std)` satisfies `inverse_transform(transform(x)) = x`
(the round trip is the identity; floating-point tolerance becomes exactness in
the rational model). -/
theorem C1_normalizer_roundtrip (n : Normalizer) (x : ℚ) (h : n.std ≠ 0) :
    n.inverse_transform (n.transform x) = x := by
  unfold Normalizer.transform Normalizer.inverse_transform
  field_simp

/-- Witness for C1 at the spec's example: `Normalizer(mean=2.0, std=0.5)` sends
`3.0` to `2.0`, sends `2.0` back to `3.0`, and round-trips `3.0`. -/
theorem C1_normalizer_roundtrip_witness :
    (Normalizer.mk 2 (1/2)).std ≠ 0 ∧
    (Normalizer.mk 2 (1/2)).transform 3 = 2 ∧
    (Normalizer.mk 2 (1/2)).inverse_transform 2 = 3 ∧
    (Normalizer.mk 2 (1/2)).inverse_transform ((Normalizer.mk 2 (1/2)).transform 3) = 3 :=
  ⟨by norm_num, by norm_num [Normalizer.transform],
   by norm_num [Normalizer.inverse_transform],
   C1_normalizer_roundtrip (Normalizer.mk 2 (1/2)) 3 (by norm_num)⟩

/-- C2: whenever the bond endpoint arrays have equal length and every entry is
a valid site index, `get_graph` returns a graph whose node count is the number
of sites of the structure (isolated atoms are padded in as extra nodes) and
whose edge count is the length of `src_id`. -/
theorem C2_get_graph_counts (sites : List String) (src dst : List Nat)
    (images : List Vec3) (lattice_matrix : List Mat3) (Z : List Nat)
    (element_types : List String) (cart_coords : List Vec3)
    (hlen : src.length = dst.length)
    (hvalid : ∀ i ∈ src ++ dst, i < sites.length) :
    (get_graph sites src dst images lattice_matrix Z element_types
        cart_coords).numNodes = sites.length ∧
    (get_graph sites src dst images lattice_matrix Z element_types
        cart_coords).numEdges = src.length := by
  refine ⟨?_, rfl⟩
  have hle := dglNumNodes_le hvalid
  simp only [get_graph]
  omega

/-- Witness for C2: a four-site structure with two bonds touching only sites
0, 1, 2; site 3 is isolated yet the node count is 4 and the edge count 2. -/
theorem C2_get_graph_counts_witness :
    ([0, 1] : List Nat).length = ([1, 2] : List Nat).length ∧
    (∀ i ∈ ([0, 1] : List Nat) ++ [1, 2], i < (["Li", "Fe", "P", "O"] : List String).length) ∧
    (get_graph ["Li", "Fe", "P", "O"] [0, 1] [1, 2] [] [] [3, 26, 15, 8] ["Li", "Fe", "P", "O"]
        []).numNodes = 4 ∧
    (get_graph ["Li", "Fe", "P", "O"] [0, 1] [1, 2] [] [] [3, 26, 15, 8] ["Li", "Fe", "P", "O"]
        []).numEdges = 2 :=
  ⟨by decide, by decide,
   (C2_get_graph_counts ["Li", "Fe", "P", "O"] [0, 1] [1, 2] [] [] [3, 26, 15, 8]
     ["Li", "Fe", "P", "O"] [] (by decide) (by decide)).1,
   (C2_get_graph_counts ["Li", "Fe", "P", "O"] [0, 1] [1, 2] [] [] [3, 26, 15, 8]
     ["Li", "Fe", "P", "O"] [] (by decide) (by decide)).2⟩

/-- C7: construction of a `PotentialLightningModule` passes the weight
validation exactly when all four loss weights are non-negative; a negative
weight fails the assertion block immediately. -/
theorem C7_weight_validation (e f s m : ℚ) :
    PotentialLightningModule.checkWeights e f s m = Except.ok () ↔
      (0 ≤ e ∧ 0 ≤ f ∧ 0 ≤ s ∧ 0 ≤ m) := by
  unfold PotentialLightningModule.checkWeights
  split_ifs with h1 h2 h3 h4
  · simp only [reduceCtorEq, false_iff]
    exact fun hc => absurd hc.1 (not_le.mpr h1)
  · simp only [reduceCtorEq, false_iff]
    exact fun hc => absurd hc.2.1 (not_le.mpr h2)
  · simp only [reduceCtorEq, false_iff]
    exact fun hc => absurd hc.2.2.1 (not_le.mpr h3)
  · simp only [reduceCtorEq, false_iff]
    exact fun hc => absurd hc.2.2.2 (not_le.mpr h4)
  · simp only [true_iff]
    exact ⟨le_of_not_lt h1, le_of_not_lt h2, le_of_not_lt h3, le_of_not_lt h4⟩

/-- C10: an unrecognized loss name never fails module construction:
`ModelLightningModule` selects the l1 loss for every string other than
`"mse_loss"`, and `PotentialLightningModule` selects the l1 loss for every
string other than `"mse_loss"` and `"huber_loss"`. -/
theorem C10_loss_selection (s t : String) (hs : s ≠ "mse_loss")
    (ht1 : t ≠ "mse_loss") (ht2 : t ≠ "huber_loss") :
    ModelLightningModule.selectLoss s = LossKind.l1 ∧
    PotentialLightningModule.selectLoss t = LossKind.l1 := by
  unfold ModelLightningModule.selectLoss PotentialLightningModule.selectLoss
  rw [if_neg hs, if_neg ht1, if_neg ht2]
  exact ⟨rfl, rfl⟩

/-- Witness for C10 at two arbitrary unrecognized loss names. -/
theorem C10_loss_selection_witness :
    ("cross_entropy" ≠ "mse_loss") ∧ ("smooth_l1" ≠ "mse_loss") ∧
    ("smooth_l1" ≠ "huber_loss") ∧
    ModelLightningModule.selectLoss "cross_entropy" = LossKind.l1 ∧
    PotentialLightningModule.selectLoss "smooth_l1" = LossKind.l1 :=
  ⟨by decide, by decide, by decide,
   (C10_loss_selection "cross_entropy" "smooth_l1" (by decide) (by decide) (by decide)).1,
   (C10_loss_selection "cross_entropy" "smooth_l1" (by decide) (by decide) (by decide)).2⟩

/-- Lookup in an association list ignores everything appended after a hit. -/
theorem lookup_append_of_some {c d : List (String × ℚ)} {k : String} {v : ℚ}
    (h : c.lookup k = some v) : (c ++ d).lookup k = some v := by
  induction c with
  | nil => simp [List.lookup] at h
  | cons kv rest ih =>
    rcases kv with ⟨a, b⟩
    by_cases hak : k == a
    · simpa [List.lookup, hak] using h
    · simp only [List.cons_append, List.lookup, hak] at h ⊢
      exact ih h

/-- Lookup in an association list falls through to the appended tail when the
front has no binding for the key. -/
theorem lookup_append_of_none {c d : List (String × ℚ)} {k : String}
    (h : c.lookup k = none) : (c ++ d).lookup k = d.lookup k := by
  induction c with
  | nil => simp
  | cons kv rest ih =>
    rcases kv with ⟨a, b⟩
    by_cases hak : k == a
    · simp [List.lookup, hak] at h
    · simp only [List.cons_append, List.lookup, hak] at h ⊢
      exact ih h

/-- Keys already bound in the checkpoint are never touched by the backfill. -/
theorem on_load_checkpoint_keeps {live : List (String × ℚ)} :
    ∀ {ckpt : List (String × ℚ)} {k : String} {v : ℚ}, ckpt.lookup k = some v →
      (on_load_checkpoint live ckpt).lookup k = some v := by
  induction live with
  | nil => intro ckpt k v h; simpa [on_load_checkpoint] using h
  | cons kv rest ih =>
    intro ckpt k v h
    show (on_load_checkpoint rest
      (if (ckpt.lookup kv.1).isSome then ckpt else ckpt ++ [kv])).lookup k = some v
    by_cases hc : (ckpt.lookup kv.1).isSome
    · rw [if_pos hc]; exact ih h
    · rw [if_neg hc]; exact ih (lookup_append_of_some h)

/-- A key missing from the checkpoint but present in the live state dict ends
up bound to the live value after the backfill pass. -/
theorem on_load_checkpoint_backfills {live : List (String × ℚ)} :
    ∀ {ckpt : List (String × ℚ)} {k : String} {v : ℚ}, ckpt.lookup k = none →
      live.lookup k = some v → (on_load_checkpoint live ckpt).lookup k = some v := by
  induction live with
  | nil => intro ckpt k v _ h2; simp [List.lookup] at h2
  | cons kv rest ih =>
    intro ckpt k v h1 h2
    rcases kv with ⟨a, b⟩
    show (on_load_checkpoint rest
      (if (ckpt.lookup a).isSome then ckpt else ckpt ++ [(a, b)])).lookup k = some v
    by_cases hak : k == a
    · have ha : k = a := eq_of_beq hak
      subst ha
      have hv : v = b := by
        simp [List.lookup] at h2
        exact h2.symm
      subst hv
      rw [if_neg (by simp [h1])]
      have hbind : (ckpt ++ [(k, v)]).lookup k = some v := by
        rw [lookup_append_of_none h1]
        simp [List.lookup]
      exact on_load_checkpoint_keeps hbind
    · have h2' : rest.lookup k = some v := by
        simpa [List.lookup, hak] using h2
      by_cases hc : (ckpt.lookup a).isSome
      · rw [if_pos hc]; exact ih h1 h2'
      · rw [if_neg hc]
        refine ih ?_ h2'
        rw [lookup_append_of_none h1]
        simp [List.lookup, hak]

/-- C9: when `on_load_checkpoint` repairs a saved state dict, a key bound in
the saved dict keeps its saved value, and a key absent from the saved dict but
present in the live state dict is backfilled with the live value instead of
failing. -/
theorem C9_checkpoint_backfill (live ckpt : List (String × ℚ)) (k : String) (v : ℚ) :
    (ckpt.lookup k = some v → (on_load_checkpoint live ckpt).lookup k = some v) ∧
    (ckpt.lookup k = none → live.lookup k = some v →
      (on_load_checkpoint live ckpt).lookup k = some v) :=
  ⟨fun h => on_load_checkpoint_keeps h, fun h1 h2 => on_load_checkpoint_backfills h1 h2⟩

/-- Witness for C9: the saved dict has `model.w1` (kept at its saved value 5
although the live value is 1) and is missing `model.w2`, which is backfilled
with the live value 2. -/
theorem C9_checkpoint_backfill_witness :
    (([("model.w1", 5)] : List (String × ℚ)).lookup "model.w1" = some 5 →
      (on_load_checkpoint [("model.w1", 1), ("model.w2", 2)]
        [("model.w1", 5)]).lookup "model.w1" = some 5) ∧
    (([("model.w1", 5)] : List (String × ℚ)).lookup "model.w2" = none →
      ([("model.w1", 1), ("model.w2", 2)] : List (String × ℚ)).lookup "model.w2" = some 2 →
      (on_load_checkpoint [("model.w1", 1), ("model.w2", 2)]
        [("model.w1", 5)]).lookup "model.w2" = some 2) ∧
    (on_load_checkpoint [("model.w1", 1), ("model.w2", 2)]
      [("model.w1", 5)]).lookup "model.w1" = some 5 ∧
    (on_load_checkpoint [("model.w1", 1), ("model.w2", 2)]
      [("model.w1", 5)]).lookup "model.w2" = some 2 :=
  ⟨(C9_checkpoint_backfill [("model.w1", 1), ("model.w2", 2)] [("model.w1", 5)]
      "model.w1" 5).1,
   (C9_checkpoint_backfill [("model.w1", 1), ("model.w2", 2)] [("model.w1", 5)]
      "model.w2" 2).2,
   (C9_checkpoint_backfill [("model.w1", 1), ("model.w2", 2)] [("model.w1", 5)]
      "model.w1" 5).1 (by decide),
   (C9_checkpoint_backfill [("model.w1", 1), ("model.w2", 2)] [("model.w1", 5)]
      "model.w2" 2).2 (by decide) (by decide)⟩

/-- An orthonormal lattice used to probe the cartesian shift computation. -/
def latticeOrtho : Mat3 := Matrix.of ![![1, 0, 0], ![0, 1, 0], ![0, 0, 1]]

/-- A sheared lattice sharing its first row with `latticeOrtho` but differing
in the second row. -/
def latticeSheared : Mat3 := Matrix.of ![![1, 0, 0], ![5, 1, 0], ![0, 0, 1]]

/-- C6 counterexample: the claim makes the stored `pbc_offshift` a function of
the periodic image offsets and the first row of the `3×3` lattice alone
(`image_offset · lattice first row`).  Here two lattices agree on their first
row, yet for the same single edge with offset `(0, 1, 0)` the stored shift
vectors differ (first components 0 and 5), so the stored shift is not the
claimed matrix-vector product against the first lattice row: because
`lattice_matrix` carries a leading batch axis of length one, `lattice_matrix[0]`
is the whole `3×3` lattice and the full matrix product is taken. -/
theorem C6_counterexample :
    (∀ j, latticeOrtho 0 j = latticeSheared 0 j) ∧
    (get_graph ["Na"] [0] [0] [![0, 1, 0]] [latticeOrtho] [11] ["Na"]
        [![0, 0, 0]]).pbc_offshift.headI 0 = 0 ∧
    (get_graph ["Na"] [0] [0] [![0, 1, 0]] [latticeSheared] [11] ["Na"]
        [![0, 0, 0]]).pbc_offshift.headI 0 = 5 ∧
    (0 : ℚ) ≠ 5 := by
  refine ⟨by decide, ?_, ?_, by norm_num⟩ <;>
    · simp [get_graph, torchMatmul, latticeOrtho, latticeSheared, Fin.sum_univ_three]

/-- C6 amended: for every batched lattice array `[L]` of shape `(1, 3, 3)`,
the per-edge `pbc_offshift` stored by `get_graph` is the full matrix product
of the image offsets with the `3×3` lattice `L = lattice_matrix[0]` — each
edge's shift is `offset ᵥ* L` — exact for arbitrary (not only orthogonal)
cells. -/
theorem C6_full_matrix_product (sites : List String) (src dst : List Nat)
    (images : List Vec3) (L : Mat3) (Z : List Nat) (element_types : List String)
    (cart_coords : List Vec3) :
    (get_graph sites src dst images [L] Z element_types cart_coords).pbc_offshift
      = images.map (fun off => Matrix.vecMul off L) := rfl

/-- C8 counterexample: for a rank-1 non-bias parameter of shape `[1]` with
`gain = 1`, the code's closed-form bound is `b = √6/√2 = √3`, so `b² = 3`;
the normal branch calls `normal_(0, bound**2)`, i.e. it uses `3` — a rational
value — as the standard deviation.  The claim says the standard deviation is
`b` itself; but the square of the actual standard deviation is `3² = 9`,
which differs from `b² = 3` (`claimedNormalStdSq 1 1`), so (both being
non-negative) the actual standard deviation is not the claimed bound. -/
theorem C8_counterexample :
    xavier_fill 1 "normal" "w" [1] = Except.ok (FillAction.normalStd 3) ∧
    claimedNormalStdSq 1 1 = 3 ∧
    (3 : ℚ) ^ 2 ≠ 3 := by
  refine ⟨?_, ?_, by norm_num⟩
  · simp +decide [xavier_fill]
  · norm_num [claimedNormalStdSq]

/-- C8 amended: for a trainable parameter of rank < 2 with first dimension
`fan` that is not bias-named, `xavier_init` computes the closed-form bound
`b = gain·√6/√(2·fan)` (recorded by its square `b² = 3·gain²/fan`); with
`distribution = "uniform"` it fills uniformly on `[-b, b]`, while with
`distribution = "normal"` it passes the SQUARE of the bound, `b² = 3·gain²/fan`,
as the standard deviation of the zero-mean normal (not `b` itself); any other
distribution string fails with an error naming the invalid option, and
parameters whose name ends in `".bias"` are zero-filled. -/
theorem C8_xavier_amended (gain : ℚ) (name bname d : String) (fan : Nat)
    (sh : List Nat)
    (hb : pyEndsWith name ".bias" = false)
    (hd1 : d ≠ "uniform") (hd2 : d ≠ "normal")
    (hbias : pyEndsWith bname ".bias" = true) :
    xavier_fill gain "uniform" name [fan]
      = Except.ok (FillAction.uniformRange (3 * gain ^ 2 / (fan : ℚ))) ∧
    xavier_fill gain "normal" name [fan]
      = Except.ok (FillAction.normalStd (3 * gain ^ 2 / (fan : ℚ))) ∧
    xavier_fill gain d name [fan] = Except.error ("Invalid distribution: " ++ d) ∧
    xavier_fill gain "uniform" bname sh = Except.ok FillAction.zeroFill := by
  unfold xavier_fill
  refine ⟨?_, ?_, ?_, ?_⟩
  · rw [if_pos (by decide), if_neg (by simp [hb]), if_pos (by simp),
      if_pos (by decide)]
    rfl
  · rw [if_pos (by decide), if_neg (by simp [hb]), if_pos (by simp),
      if_neg (by decide)]
    rfl
  · rw [if_neg (by simp [hd1, hd2])]
  · rw [if_pos (by decide), if_pos (by simp [hbias])]

/-- Witness for C8 amended, at `gain = 2`, a weight parameter of shape `[4]`
(so `3·gain²/fan = 3`), an unrecognized distribution name, and a bias
parameter. -/
theorem C8_xavier_amended_witness :
    pyEndsWith "layer.weight" ".bias" = false ∧
    ("poisson" ≠ "uniform") ∧ ("poisson" ≠ "normal") ∧
    pyEndsWith "layer.bias" ".bias" = true ∧
    xavier_fill 2 "uniform" "layer.weight" [4]
      = Except.ok (FillAction.uniformRange (3 * 2 ^ 2 / ((4 : Nat) : ℚ))) ∧
    xavier_fill 2 "normal" "layer.weight" [4]
      = Except.ok (FillAction.normalStd (3 * 2 ^ 2 / ((4 : Nat) : ℚ))) ∧
    xavier_fill 2 "poisson" "layer.weight" [4]
      = Except.error ("Invalid distribution: " ++ "poisson") ∧
    xavier_fill 2 "uniform" "layer.bias" [3, 3] = Except.ok FillAction.zeroFill :=
  ⟨by decide, by decide, by decide, by decide,
   C8_xavier_amended 2 "layer.weight" "layer.bias" "poisson" 4 [3, 3]
     (by decide) (by decide) (by decide) (by decide)⟩

/-- Zipping two nonempty lists yields a nonempty list. -/
theorem zip_ne_nil {α β : Type} {la : List α} {lb : List β}
    (h1 : la ≠ []) (h2 : lb ≠ []) : la.zip lb ≠ [] := by
  cases la with
  | nil => cases h1 rfl
  | cons a as =>
    cases lb with
    | nil => cases h2 rfl
    | cons b bs => simp [List.zip]

/-- Adding two finite entries gives a finite entry. -/
theorem QN.add_isSome {a b : QN} (ha : a.isSome) (hb : b.isSome) :
    (QN.add a b).isSome := by
  cases a <;> cases b <;> simp_all [QN.add, QN.lift2]

/-- The minimum of two finite entries is finite. -/
theorem QN.min_isSome {a b : QN} (ha : a.isSome) (hb : b.isSome) :
    (QN.min a b).isSome := by
  cases a <;> cases b <;> simp_all [QN.min, QN.lift2]

/-- Scaling a finite entry gives a finite entry. -/
theorem QN.smul_isSome {c : ℚ} {a : QN} (ha : a.isSome) : (QN.smul c a).isSome := by
  cases a <;> simp_all [QN.smul]

/-- The sum of finite entries is finite. -/
theorem sumQN_isSome {l : List QN} (h : ∀ x ∈ l, x.isSome) : (sumQN l).isSome := by
  induction l with
  | nil => simp [sumQN]
  | cons x xs ih =>
    exact QN.add_isSome (h x (by simp)) (ih (fun y hy => h y (by simp [hy])))

/-- The mean of a nonempty list of finite entries is finite. -/
theorem meanQN_isSome {l : List QN} (hne : l ≠ []) (h : ∀ x ∈ l, x.isSome) :
    (meanQN l).isSome := by
  cases l with
  | nil => cases hne rfl
  | cons x xs =>
    simp only [meanQN]
    obtain ⟨s, hs⟩ := Option.isSome_iff_exists.mp (sumQN_isSome h)
    simp [hs]

/-- A mean of an elementwise-lifted operation over the zip of two nonempty
all-finite lists is finite. -/
theorem meanLift2_isSome {f : ℚ → ℚ → ℚ} {la lb : List QN} (hne : la.zip lb ≠ [])
    (ha : ∀ x ∈ la, x.isSome) (hb : ∀ x ∈ lb, x.isSome) :
    (meanQN ((la.zip lb).map (fun p => QN.lift2 f p.1 p.2))).isSome := by
  apply meanQN_isSome
  · simpa using hne
  · intro x hx
    simp only [List.mem_map] at hx
    obtain ⟨p, hp, rfl⟩ := hx
    have hmem := List.of_mem_zip hp
    obtain ⟨a, ha1⟩ := Option.isSome_iff_exists.mp (ha p.1 hmem.1)
    obtain ⟨b, hb1⟩ := Option.isSome_iff_exists.mp (hb p.2 hmem.2)
    simp [QN.lift2, ha1, hb1]

/-- `lossMean` is finite on nonempty all-finite inputs. -/
theorem lossMean_isSome {k : LossKind} {δ : ℚ} {la lb : List QN}
    (hne : la.zip lb ≠ []) (ha : ∀ x ∈ la, x.isSome) (hb : ∀ x ∈ lb, x.isSome) :
    (lossMean k δ la lb).isSome :=
  meanLift2_isSome hne ha hb

/-- All entries of `divE` are finite when the energies are. -/
theorem divE_isSome {es : List QN} {ns : List ℚ} (h : ∀ x ∈ es, x.isSome) :
    ∀ x ∈ divE es ns, x.isSome := by
  intro x hx
  simp only [divE, List.mem_map] at hx
  obtain ⟨p, hp, rfl⟩ := hx
  obtain ⟨a, ha⟩ := Option.isSome_iff_exists.mp (h p.1 (List.of_mem_zip hp).1)
  simp [ha]

/-- `divE` of nonempty lists is nonempty. -/
theorem divE_ne_nil {es : List QN} {ns : List ℚ} (h1 : es ≠ []) (h2 : ns ≠ []) :
    divE es ns ≠ [] := by
  unfold divE
  simpa using zip_ne_nil h1 h2

/-- Negating a list preserves finiteness of its entries. -/
theorem negL_isSome {l : List QN} (h : ∀ x ∈ l, x.isSome) :
    ∀ x ∈ negL l, x.isSome := by
  intro x hx
  simp only [negL, List.mem_map] at hx
  obtain ⟨y, hy, rfl⟩ := hx
  obtain ⟨a, ha⟩ := Option.isSome_iff_exists.mp (h y hy)
  simp [QN.neg, ha]

/-- Negating a nonempty list gives a nonempty list. -/
theorem negL_ne_nil {l : List QN} (h : l ≠ []) : negL l ≠ [] := by
  unfold negL
  simpa using h

/-- Taking absolute values preserves finiteness of the entries. -/
theorem absL_isSome {l : List QN} (h : ∀ x ∈ l, x.isSome) :
    ∀ x ∈ absL l, x.isSome := by
  intro x hx
  simp only [absL, List.mem_map] at hx
  obtain ⟨y, hy, rfl⟩ := hx
  obtain ⟨a, ha⟩ := Option.isSome_iff_exists.mp (h y hy)
  simp [QN.abs, ha]

/-- Taking absolute values of a nonempty list gives a nonempty list. -/
theorem absL_ne_nil {l : List QN} (h : l ≠ []) : absL l ≠ [] := by
  unfold absL
  simpa using h

/-- After masking, every surviving label is finite (non-NaN). -/
theorem mask_fst_isSome {ls ps : List QN} :
    ∀ x ∈ (siteWiseMask true ls ps).1, x.isSome := by
  intro x hx
  simp only [siteWiseMask, if_true] at hx
  simp only [List.mem_map] at hx
  obtain ⟨p, hp, rfl⟩ := hx
  exact (List.mem_filter.mp hp).2

/-- After masking, the surviving predictions are finite whenever all
predictions are. -/
theorem mask_snd_isSome {ls ps : List QN} (hp : ∀ x ∈ ps, x.isSome) :
    ∀ x ∈ (siteWiseMask true ls ps).2, x.isSome := by
  intro x hx
  simp only [siteWiseMask, if_true] at hx
  simp only [List.mem_map] at hx
  obtain ⟨p, hpp, rfl⟩ := hx
  exact hp p.2 (List.of_mem_zip (List.mem_of_mem_filter hpp)).2

/-- Masking returns label and prediction lists of equal length. -/
theorem mask_len_eq {ls ps : List QN} :
    (siteWiseMask true ls ps).1.length = (siteWiseMask true ls ps).2.length := by
  simp [siteWiseMask]

/-- When every site-wise label is NaN, the mask removes everything. -/
theorem mask_nil_of_all_none {ls ps : List QN} (h : ∀ x ∈ ls, x = none) :
    (siteWiseMask true ls ps).1 = [] := by
  simp only [siteWiseMask, if_true, List.map_eq_nil_iff]
  rw [List.filter_eq_nil_iff]
  intro p hp
  have := h p.1 (List.of_mem_zip hp).1
  simp [this]

/-- The energy/force/stress part of the total loss is finite on nonempty
all-finite inputs. -/
theorem totalEFS_isSome {cfg : PotentialConfig} {labels preds : EFSM}
    {num_atoms : List ℚ}
    (heL : ∀ x ∈ labels.energies, x.isSome) (hePL : ∀ x ∈ preds.energies, x.isSome)
    (heN : labels.energies ≠ []) (hePN : preds.energies ≠ []) (hna : num_atoms ≠ [])
    (hfL : ∀ x ∈ labels.forces, x.isSome) (hfPL : ∀ x ∈ preds.forces, x.isSome)
    (hfN : labels.forces ≠ []) (hfPN : preds.forces ≠ [])
    (hs : cfg.calc_stresses = true →
      (∀ x ∈ labels.stresses, x.isSome) ∧ (∀ x ∈ preds.stresses, x.isSome) ∧
      labels.stresses ≠ [] ∧ preds.stresses ≠ []) :
    (totalEFS cfg labels preds num_atoms).isSome := by
  have he := @lossMean_isSome cfg.lossKind cfg.huberDelta _ _
    (zip_ne_nil (divE_ne_nil heN hna) (divE_ne_nil hePN hna))
    (divE_isSome heL) (divE_isSome hePL)
  have hf := @lossMean_isSome cfg.lossKind cfg.huberDelta _ _
    (zip_ne_nil hfN hfPN) hfL hfPL
  have hbase := QN.add_isSome (@QN.smul_isSome cfg.energy_weight _ he)
    (@QN.smul_isSome cfg.force_weight _ hf)
  unfold totalEFS
  by_cases hc : cfg.calc_stresses
  · obtain ⟨hsL, hsPL, hsN, hsPN⟩ := hs hc
    have hsl := @lossMean_isSome cfg.lossKind cfg.huberDelta _ _
      (zip_ne_nil hsN hsPN) hsL hsPL
    simp only [hc, if_true]
    exact QN.add_isSome hbase (QN.smul_isSome hsl)
  · simp only [hc, if_false]
    exact hbase

/-- The site-wise loss value of the nonempty branch is finite when both masked
lists are nonempty, of equal length, and all-finite. -/
theorem siteWiseTriple_fst_isSome (cfg : PotentialConfig) {l3 p3 : List QN}
    (hne : l3 ≠ []) (hlen : l3.length = p3.length)
    (h1 : ∀ x ∈ l3, x.isSome) (h2 : ∀ x ∈ p3, x.isSome) :
    (siteWiseTriple cfg l3 p3).1.isSome := by
  have hpne : p3 ≠ [] := by
    intro hp
    rw [hp, List.length_nil] at hlen
    exact hne (List.length_eq_zero.mp hlen)
  unfold siteWiseTriple
  rcases ht : cfg.site_wise_target with _ | tgt
  · exact lossMean_isSome (zip_ne_nil hne hpne) h1 h2
  · cases tgt with
    | absolute =>
      simp only [reduceCtorEq, if_pos]
      exact lossMean_isSome (zip_ne_nil (absL_ne_nil hne) hpne) (absL_isSome h1) h2
    | symbreak =>
      exact QN.min_isSome
        (lossMean_isSome (zip_ne_nil hne hpne) h1 h2)
        (lossMean_isSome (zip_ne_nil hne (negL_ne_nil hpne)) h1 (negL_isSome h2))

/-- C3: with site-wise prediction and `allow_missing_labels` enabled, NaN
site-wise labels are masked out of labels and predictions before the loss is
computed, so `Total_Loss` is never NaN whatever NaNs the site-wise labels
hold; and when no valid (non-NaN) site-wise entry remains, `Site_Wise_MAE`
and `Site_Wise_RMSE` are exactly zero and `Total_Loss` equals the total
computed without any site-wise term. -/
theorem C3_missing_label_masking (cfg : PotentialConfig) (labels preds : EFSM)
    (num_atoms : List ℚ)
    (hsw : cfg.calc_site_wise = true)
    (hallow : cfg.allow_missing_labels = true)
    (heL : ∀ x ∈ labels.energies, x.isSome) (hePL : ∀ x ∈ preds.energies, x.isSome)
    (heN : labels.energies ≠ []) (hePN : preds.energies ≠ []) (hna : num_atoms ≠ [])
    (hfL : ∀ x ∈ labels.forces, x.isSome) (hfPL : ∀ x ∈ preds.forces, x.isSome)
    (hfN : labels.forces ≠ []) (hfPN : preds.forces ≠ [])
    (hs : cfg.calc_stresses = true →
      (∀ x ∈ labels.stresses, x.isSome) ∧ (∀ x ∈ preds.stresses, x.isSome) ∧
      labels.stresses ≠ [] ∧ preds.stresses ≠ [])
    (hpL : ∀ x ∈ preds.site_wise, x.isSome) :
    (loss_fn cfg labels preds num_atoms).Total_Loss.isSome ∧
    ((∀ x ∈ labels.site_wise, x = none) →
      (loss_fn cfg labels preds num_atoms).Site_Wise_MAE = some 0 ∧
      (loss_fn cfg labels preds num_atoms).Site_Wise_RMSE = some 0 ∧
      (loss_fn cfg labels preds num_atoms).Total_Loss
        = (loss_fn { cfg with calc_site_wise := false } labels preds
            num_atoms).Total_Loss) := by
  have hTE := @totalEFS_isSome cfg labels preds num_atoms heL hePL heN hePN hna hfL hfPL hfN hfPN hs
  constructor
  · simp only [loss_fn, hsw, hallow, if_true]
    by_cases hm : (siteWiseMask true labels.site_wise preds.site_wise).1.isEmpty
    · simp only [hm, if_true]
      exact hTE
    · simp only [hm, if_false]
      have hne : (siteWiseMask true labels.site_wise preds.site_wise).1 ≠ [] := by
        simpa [List.isEmpty_iff] using hm
      exact QN.add_isSome hTE (QN.smul_isSome (siteWiseTriple_fst_isSome cfg hne
        mask_len_eq mask_fst_isSome (mask_snd_isSome hpL)))
  · intro hnone
    have hmask : (siteWiseMask true labels.site_wise preds.site_wise).1 = [] :=
      mask_nil_of_all_none hnone
    refine ⟨?_, ?_, ?_⟩ <;>
      simp [loss_fn, hsw, hallow, hmask, totalEFS]

/-- Witness for C3: stress disabled, a one-entry energy/force batch, and a
site-wise label tensor that is entirely NaN while the prediction is finite. -/
theorem C3_missing_label_masking_witness :
    ((⟨1, 1, 0, 1, false, true, true, some SiteWiseTarget.absolute, LossKind.mse, 1⟩ :
        PotentialConfig).calc_site_wise = true) ∧
    (∀ x ∈ ([none, none] : List QN), x = none) ∧
    (loss_fn ⟨1, 1, 0, 1, false, true, true, some SiteWiseTarget.absolute, LossKind.mse, 1⟩
      ⟨[some 1], [some 1], [], [none, none]⟩ ⟨[some 2], [some 0], [], [some 3, some 4]⟩
      [2]).Total_Loss.isSome ∧
    (loss_fn ⟨1, 1, 0, 1, false, true, true, some SiteWiseTarget.absolute, LossKind.mse, 1⟩
      ⟨[some 1], [some 1], [], [none, none]⟩ ⟨[some 2], [some 0], [], [some 3, some 4]⟩
      [2]).Site_Wise_MAE = some 0 ∧
    (loss_fn ⟨1, 1, 0, 1, false, true, true, some SiteWiseTarget.absolute, LossKind.mse, 1⟩
      ⟨[some 1], [some 1], [], [none, none]⟩ ⟨[some 2], [some 0], [], [some 3, some 4]⟩
      [2]).Site_Wise_RMSE = some 0 ∧
    (loss_fn ⟨1, 1, 0, 1, false, true, true, some SiteWiseTarget.absolute, LossKind.mse, 1⟩
      ⟨[some 1], [some 1], [], [none, none]⟩ ⟨[some 2], [some 0], [], [some 3, some 4]⟩
      [2]).Total_Loss
      = (loss_fn ⟨1, 1, 0, 1, false, false, true, some SiteWiseTarget.absolute, LossKind.mse, 1⟩
          ⟨[some 1], [some 1], [], [none, none]⟩ ⟨[some 2], [some 0], [], [some 3, some 4]⟩
          [2]).Total_Loss := by
  have h := C3_missing_label_masking
    ⟨1, 1, 0, 1, false, true, true, some SiteWiseTarget.absolute, LossKind.mse, 1⟩
    ⟨[some 1], [some 1], [], [none, none]⟩ ⟨[some 2], [some 0], [], [some 3, some 4]⟩
    [2] (by decide) (by decide) (by decide) (by decide) (by decide) (by decide)
    (by decide) (by decide) (by decide) (by decide) (by decide) (by decide) (by decide)
  have h2 := h.2 (by decide)
  exact ⟨by decide, by decide, h.1, h2.1, h2.2.1, h2.2.2⟩

/-- Negating a tensor twice is the identity. -/
theorem negL_negL (l : List QN) : negL (negL l) = l := by
  unfold negL QN.neg
  rw [List.map_map]
  have : (Option.map (fun a : ℚ => -a)) ∘ (Option.map (fun a : ℚ => -a)) = id := by
    funext x
    cases x <;> simp
  rw [this, List.map_id]

/-- `torch.min` of scalars is commutative (also through NaN propagation). -/
theorem QN.min_comm (a b : QN) : QN.min a b = QN.min b a := by
  cases a <;> cases b <;> simp [QN.min, QN.lift2, min_comm, inf_comm]

/-- Zipping against a negated prediction list negates the second components of
the zipped pairs. -/
theorem zip_negL (ls ps : List QN) :
    ls.zip (negL ps) = (ls.zip ps).map (fun p => (p.1, QN.neg p.2)) := by
  unfold negL
  rw [List.zip_map_right]
  rfl

/-- Filtering on the first component commutes with mapping over the second. -/
theorem filter_fst_map_snd (f : QN → QN) (l : List (QN × QN)) :
    (l.map (fun p => (p.1, f p.2))).filter (fun p => p.1.isSome)
      = (l.filter (fun p => p.1.isSome)).map (fun p => (p.1, f p.2)) := by
  induction l with
  | nil => rfl
  | cons p rest ih =>
    by_cases hp : p.1.isSome <;> simp [List.filter_cons, hp, ih]

/-- The missing-label mask commutes with negating the predictions: the same
positions survive (the mask only inspects the labels) and the surviving
predictions are the negated survivors. -/
theorem siteWiseMask_negL (allow : Bool) (ls ps : List QN) :
    siteWiseMask allow ls (negL ps)
      = ((siteWiseMask allow ls ps).1, negL (siteWiseMask allow ls ps).2) := by
  cases allow with
  | false => simp [siteWiseMask]
  | true =>
    simp only [siteWiseMask, if_true]
    rw [zip_negL, filter_fst_map_snd]
    simp [List.map_map, Function.comp, negL]

/-- Under the `"symbreak"` target, the site-wise loss/metric triple is
invariant to negating the (masked) predictions, since the minimum ranges over
both signs. -/
theorem siteWiseTriple_negL (cfg : PotentialConfig)
    (h : cfg.site_wise_target = some SiteWiseTarget.symbreak) (l3 p3 : List QN) :
    siteWiseTriple cfg l3 (negL p3) = siteWiseTriple cfg l3 p3 := by
  simp only [siteWiseTriple, h, symbreak_m_loss]
  rw [negL_negL]
  rw [QN.min_comm (lossMean cfg.lossKind cfg.huberDelta l3 (negL p3)),
    QN.min_comm (maeQN l3 (negL p3)), QN.min_comm (rmseSqQN l3 (negL p3))]

/-- The energy/force/stress part of the loss never reads the site-wise
predictions. -/
theorem totalEFS_update_site (cfg : PotentialConfig) (labels preds : EFSM)
    (x : List QN) (n : List ℚ) :
    totalEFS cfg labels { preds with site_wise := x } n
      = totalEFS cfg labels preds n := rfl

/-- C5: under the `"symbreak"` site-wise target, every output of `loss_fn`
(total loss and all logged metrics) is unchanged when the sign of the
site-wise predictions is flipped. -/
theorem C5_symbreak_sign_invariance (cfg : PotentialConfig) (labels preds : EFSM)
    (num_atoms : List ℚ) (h : cfg.site_wise_target = some SiteWiseTarget.symbreak) :
    loss_fn cfg labels { preds with site_wise := negL preds.site_wise } num_atoms
      = loss_fn cfg labels preds num_atoms := by
  unfold loss_fn
  simp only [siteWiseMask_negL, siteWiseTriple_negL cfg h, totalEFS_update_site]

/-- Witness for C5: a symbreak configuration on a two-entry site-wise batch;
flipping the prediction signs leaves the full result bundle unchanged. -/
theorem C5_symbreak_sign_invariance_witness :
    ((⟨1, 1, 0, 1, false, true, false, some SiteWiseTarget.symbreak, LossKind.mse, 1⟩ :
        PotentialConfig).site_wise_target = some SiteWiseTarget.symbreak) ∧
    loss_fn ⟨1, 1, 0, 1, false, true, false, some SiteWiseTarget.symbreak, LossKind.mse, 1⟩
      ⟨[some 1], [some 1], [], [some 1, some (-2)]⟩
      ⟨[some 2], [some 0], [], negL [some 3, some 4]⟩ [2]
      = loss_fn ⟨1, 1, 0, 1, false, true, false, some SiteWiseTarget.symbreak, LossKind.mse, 1⟩
          ⟨[some 1], [some 1], [], [some 1, some (-2)]⟩
          ⟨[some 2], [some 0], [], [some 3, some 4]⟩ [2] :=
  ⟨by decide,
   C5_symbreak_sign_invariance
     ⟨1, 1, 0, 1, false, true, false, some SiteWiseTarget.symbreak, LossKind.mse, 1⟩
     ⟨[some 1], [some 1], [], [some 1, some (-2)]⟩
     ⟨[some 2], [some 0], [], [some 3, some 4]⟩ [2] (by decide)⟩

/-- C4 amended: under the `"symbreak"` site-wise target, with at least one
valid masked entry, the site-wise term added to `Total_Loss` is the minimum of
the two REDUCED loss values — `min(L(labels₃, preds₃), L(labels₃, -preds₃))`
with `L` including its mean reduction — the minimum being taken after
reduction (on two scalars), not elementwise before it. -/
theorem C4_symbreak_after_reduction (cfg : PotentialConfig) (labels preds : EFSM)
    (num_atoms : List ℚ)
    (h1 : cfg.calc_site_wise = true)
    (h2 : cfg.site_wise_target = some SiteWiseTarget.symbreak)
    (h3 : (siteWiseMask cfg.allow_missing_labels labels.site_wise
      preds.site_wise).1.isEmpty = false) :
    (loss_fn cfg labels preds num_atoms).Total_Loss
      = QN.add
          (loss_fn { cfg with calc_site_wise := false } labels preds
            num_atoms).Total_Loss
          (QN.smul cfg.site_wise_weight
            (QN.min
              (lossMean cfg.lossKind cfg.huberDelta
                (siteWiseMask cfg.allow_missing_labels labels.site_wise
                  preds.site_wise).1
                (siteWiseMask cfg.allow_missing_labels labels.site_wise
                  preds.site_wise).2)
              (lossMean cfg.lossKind cfg.huberDelta
                (siteWiseMask cfg.allow_missing_labels labels.site_wise
                  preds.site_wise).1
                (negL (siteWiseMask cfg.allow_missing_labels labels.site_wise
                  preds.site_wise).2)))) := by
  simp [loss_fn, h1, h2, h3, siteWiseTriple, symbreak_m_loss, totalEFS]

/-- Witness for C4 amended at a concrete symbreak configuration with two
valid site-wise entries. -/
theorem C4_symbreak_after_reduction_witness :
    ((⟨1, 1, 0, 1, false, true, false, some SiteWiseTarget.symbreak, LossKind.mse, 1⟩ :
        PotentialConfig).calc_site_wise = true) ∧
    ((siteWiseMask false ([some 1, some (-1)] : List QN)
      ([some 1, some 1] : List QN)).1.isEmpty = false) ∧
    (loss_fn ⟨1, 1, 0, 1, false, true, false, some SiteWiseTarget.symbreak, LossKind.mse, 1⟩
      ⟨[some 1], [some 1], [], [some 1, some (-1)]⟩
      ⟨[some 2], [some 0], [], [some 1, some 1]⟩ [2]).Total_Loss
      = QN.add
          (loss_fn ⟨1, 1, 0, 1, false, false, false, some SiteWiseTarget.symbreak, LossKind.mse, 1⟩
            ⟨[some 1], [some 1], [], [some 1, some (-1)]⟩
            ⟨[some 2], [some 0], [], [some 1, some 1]⟩ [2]).Total_Loss
          (QN.smul 1
            (QN.min
              (lossMean LossKind.mse 1
                (siteWiseMask false [some 1, some (-1)] [some 1, some 1]).1
                (siteWiseMask false [some 1, some (-1)] [some 1, some 1]).2)
              (lossMean LossKind.mse 1
                (siteWiseMask false [some 1, some (-1)] [some 1, some 1]).1
                (negL (siteWiseMask false [some 1, some (-1)] [some 1, some 1]).2)))) :=
  ⟨by decide, by decide,
   C4_symbreak_after_reduction
     ⟨1, 1, 0, 1, false, true, false, some SiteWiseTarget.symbreak, LossKind.mse, 1⟩
     ⟨[some 1], [some 1], [], [some 1, some (-1)]⟩
     ⟨[some 2], [some 0], [], [some 1, some 1]⟩ [2] (by decide) (by decide) (by decide)⟩

/-- A symbreak configuration isolating the site-wise loss term: all other
weights are zero and the loss is mean-squared error. -/
def cfgSymbreakOnly : PotentialConfig :=
  ⟨0, 0, 0, 1, false, true, false, some SiteWiseTarget.symbreak, LossKind.mse, 1⟩

/-- C4 counterexample: for labels `[1, -1]` and predictions `[1, 1]` under
mean-squared error, the code's site-wise term is
`min(mean[(1-1)², (-1-1)²], mean[(1+1)², (-1+1)²]) = min(2, 2) = 2` and
`Total_Loss = 2`, whereas the claim's elementwise-minimum-before-reduction
policy gives `mean[min(0, 4), min(4, 0)] = 0`, so the total the claim
predicts (`0`) differs from the code's (`2`). -/
theorem C4_counterexample :
    (loss_fn cfgSymbreakOnly
      ⟨[some 0], [some 0], [], [some 1, some (-1)]⟩
      ⟨[some 0], [some 0], [], [some 1, some 1]⟩ [1]).Total_Loss = some 2 ∧
    specClaim_symbreak_m_loss LossKind.mse 1 [some 1, some (-1)] [some 1, some 1]
      = some 0 ∧
    QN.add
      (loss_fn { cfgSymbreakOnly with calc_site_wise := false }
        ⟨[some 0], [some 0], [], [some 1, some (-1)]⟩
        ⟨[some 0], [some 0], [], [some 1, some 1]⟩ [1]).Total_Loss
      (QN.smul 1
        (specClaim_symbreak_m_loss LossKind.mse 1 [some 1, some (-1)]
          [some 1, some 1])) = some 0 ∧
    (some (2 : ℚ) : QN) ≠ some 0 := by
  refine ⟨?_, ?_, ?_, by norm_num⟩ <;>
    norm_num [cfgSymbreakOnly, loss_fn, totalEFS, siteWiseTriple, symbreak_m_loss,
      specClaim_symbreak_m_loss, lossMean, meanQN, sumQN, divE, siteWiseMask,
      QN.lift2, QN.add, QN.smul, QN.min, negL, QN.neg, lossElem]
